import Mathlib

/-!
Verification of the provisioning and update engine of coc-utils:
`LanguageServerProvider` (src/progress.ts) and `ServerInstaller`.

The TypeScript code is shallowly embedded as pure Lean functions.
Stateful file-system operations are modelled by explicit state passing
over `FsState`; asynchronous collaborator outcomes (HTTP fetch, artifact
download, archive extraction, directory deletion) are supplied by an
environment record, so one Lean evaluation corresponds to one execution
of the TypeScript code under a fixed schedule of collaborator results.
Thrown JavaScript exceptions are modelled with `Except`.

Modelling grain (stated once here, assumed throughout):
- `rimraf.sync` of the server directory and of the state file inside one
  `try` block of `cleanupLanguageServer` is modelled as a single atomic
  attempt that either deletes both or deletes nothing and throws.
- A successful extraction is assumed to materialize the executable file
  (the downloaded artifact is a correct package).
- `window.*` prompt and message collaborators never throw; a prompt
  returns the boolean supplied by the environment.
- `Date.now()` returns the single instant `now` of the environment.
-/

namespace CocUtils

/-- Exception values thrown by the embedded code.  `parse` is a
`JSON.parse` failure on the state file, `deletion` tags a failed
`rimraf` attempt, `noAsset` is the TypeError raised by indexing an empty
`matched_assets`, `assertFail` is a failed `assert`, `undef` is the
JavaScript `undefined` value thrown by `throw lastError` when no
deletion attempt was ever made. -/
inductive Err where
  | parse (msg : String)
  | network (msg : String)
  | extraction (msg : String)
  | deletion (attempt : Nat)
  | noAsset
  | assertFail
  | undef
  | other (msg : String)
deriving DecidableEq, Repr

/-- Decidable equality of `Except` values, used to evaluate embedded
functions on concrete inputs. -/
instance {ε α : Type} [DecidableEq ε] [DecidableEq α] : DecidableEq (Except ε α)
  | .ok a, .ok b =>
    if h : a = b then .isTrue (by rw [h]) else .isFalse (by simp [h])
  | .ok _, .error _ => .isFalse (by simp)
  | .error _, .ok _ => .isFalse (by simp)
  | .error a, .error b =>
    if h : a = b then .isTrue (by rw [h]) else .isFalse (by simp [h])

/-- The heterogeneous `error: any` field of installer results: either a
string literal from the source or a caught exception value. -/
inductive ErrVal where
  | msg (s : String)
  | exn (e : Err)
deriving DecidableEq, Repr

/-- The `IDownloadInfo` record: `(url, version, id, downloadedTime)`,
persisted as the sole content of `downloadinfo.json`. -/
structure DownloadInfo where
  url : String
  version : String
  id : Nat
  downloadedTime : Nat
deriving DecidableEq, Repr

/-- Content of the state file `downloadinfo.json`, abstracted to what
`JSON.parse` does with the bytes: either a record or a parse failure. -/
inductive InfoFileContent where
  | valid (info : DownloadInfo)
  | corrupt (msg : String)
deriving DecidableEq, Repr

/-- The file-system state visible to the provider and the installer.
`infoFile` is the state file (`none` = absent); the boolean fields model
`fs.existsSync` at the storage directory, the server directory, the
server executable, the downloaded archive, and the configured custom
path respectively. -/
structure FsState where
  storageDirExists : Bool
  serverDirExists : Bool
  exeExists : Bool
  archiveExists : Bool
  customExists : Bool
  infoFile : Option InfoFileContent
deriving DecidableEq, Repr

/-- The `Archiver` union: `"zip" | "gzip" | "tar-gzip"`. -/
inductive Archiver where
  | zip
  | gzip
  | targzip
deriving DecidableEq, Repr

/-- `platformFilename: string | RegExp`.  A RegExp is modelled by its
match predicate together with its display string (the string JS
interpolation produces for it). -/
inductive PlatformFilename where
  | str (s : String)
  | pattern (accepts : String → Bool) (display : String)

/-- `LanguageServerRepository`: a GitHub repo/channel pair or a plain
URL prefix (the `url-prefix` kind). -/
inductive Repo where
  | github (repo : String) (channel : String)
  | byUrl (url : String)

/-- One entry of the GitHub release `assets` array. -/
structure GithubAsset where
  name : String
  browser_download_url : String
deriving DecidableEq, Repr

/-- The GitHub release metadata consumed by `fetchDownloadInfo`. -/
structure GithubRelease where
  assets : List GithubAsset
  name : String
  id : Nat
deriving DecidableEq, Repr

/-- Construction-time provider configuration: repository descriptor,
platform package entry, and the derived executable path
(`languageServerExe`). -/
structure ProviderConfig where
  repo : Repo
  platformFilename : PlatformFilename
  archiver : Archiver
  exePath : String

/-- The string a JS template literal produces for `platformFilename`. -/
def PlatformFilename.displayStr : PlatformFilename → String
  | .str s => s
  | .pattern _ d => d

/-- The asset filter of `fetchDownloadInfo`: exact string equality for a
string pattern, `RegExp.exec` truthiness for a RegExp pattern. -/
def PlatformFilename.matchesName : PlatformFilename → String → Bool
  | .str s, n => n = s
  | .pattern f _, n => f n

/-- `fetchDownloadInfo` (progress.ts): resolve a concrete artifact.  For
`github` it fetches the release JSON (outcome supplied as `httpJson`),
filters assets by `platformFilename`, and takes the first match; for the
URL-prefix kind it synthesizes the URL with `version = ""` and `id = 0`. -/
def fetchDownloadInfo (cfg : ProviderConfig) (httpJson : Except Err GithubRelease)
    (now : Nat) : Except Err DownloadInfo :=
  match cfg.repo with
  | .github _ _ =>
    match httpJson with
    | .error e => .error e
    | .ok rel =>
      match rel.assets.filter (fun a => cfg.platformFilename.matchesName a.name) with
      | [] => .error .noAsset
      | a :: _ => .ok ⟨a.browser_download_url, rel.name, rel.id, now⟩
  | .byUrl u => .ok ⟨u ++ "/" ++ cfg.platformFilename.displayStr, "", 0, now⟩

/-- `loadLocalDownloadInfo`: `undefined` when the state file is missing,
otherwise `JSON.parse` of its content (a parse failure throws). -/
def loadLocalDownloadInfo (fs : FsState) : Except Err (Option DownloadInfo) :=
  match fs.infoFile with
  | none => .ok none
  | some (.valid info) => .ok (some info)
  | some (.corrupt msg) => .error (.parse msg)

/-- `saveLocalDownloadInfo`: overwrite the state file with the
serialized record. -/
def saveLocalDownloadInfo (inf : DownloadInfo) (fs : FsState) : FsState :=
  { fs with infoFile := some (.valid inf) }

/-- Outcome of `cleanupLanguageServer`: a normal return carrying the
boolean, or `throw lastError` (whose payload is `none` when no deletion
attempt was ever made, i.e. the JS `undefined`). -/
inductive CleanupResult where
  | ok (removed : Bool)
  | thrown (lastError : Option Err)
deriving DecidableEq, Repr

/-- One successful deletion attempt: the server directory (and the
executable inside it) and the state file are removed. -/
def cleanupApply (fs : FsState) : FsState :=
  { fs with serverDirExists := false, exeExists := false, infoFile := none }

/-- The retry loop of `cleanupLanguageServer`.  `sched k` is the outcome
of deletion attempt `k` (`none` = success); each failed attempt sleeps
100 ms, so the elapsed time before attempt `k` is `100 * k` and the
`while` guard reads `100 * k < timeout`.  Fuel is structural recursion
bookkeeping only; callers pass enough fuel that it never runs out before
the guard fails. -/
def cleanupLoop (sched : Nat → Option Err) (timeout : Nat) :
    Nat → Nat → Option Err → FsState → CleanupResult × FsState
  | 0, _, lastError, fs => (.thrown lastError, fs)
  | fuel + 1, k, lastError, fs =>
    if 100 * k < timeout then
      if fs.serverDirExists then
        match sched k with
        | none => (.ok true, cleanupApply fs)
        | some e => cleanupLoop sched timeout fuel (k + 1) (some e) fs
      else (.ok false, fs)
    else (.thrown lastError, fs)

/-- `cleanupLanguageServer(timeout)`: retry removal of the server
directory and the state file until success or until `timeout` ms
elapsed, then rethrow the last observed error; return `false` without
error when the directory does not exist. -/
def cleanupLanguageServer (sched : Nat → Option Err) (timeout : Nat)
    (fs : FsState) : CleanupResult × FsState :=
  cleanupLoop sched timeout (timeout / 100 + 2) 0 none fs

/-- Observable side-effect log of one provider call: whether release
resolution ran, whether the artifact GET ran, whether the server
directory was removed, whether an extraction was performed. -/
structure ProvEffects where
  fetched : Bool
  artifactDownloaded : Bool
  removedServerDir : Bool
  extracted : Bool
deriving DecidableEq, Repr

/-- No provider effect yet. -/
def ProvEffects.init : ProvEffects := ⟨false, false, false, false⟩

/-- Environment of one provider execution: outcome of the release-JSON
fetch, schedule of deletion-attempt outcomes, outcome of the artifact
download, outcome of the extraction (`none` = success), and the clock. -/
structure ProviderEnv where
  httpJson : Except Err GithubRelease
  deleteErr : Nat → Option Err
  downloadErr : Option Err
  extractErr : Option Err
  now : Nat

/-- The fresh-install tail of `downloadLanguageServer`: cleanup, mkdir,
stream the artifact to the archive path, extract, unlink the archive,
write the new record.  Any failure rethrows before the record write; a
failed extraction leaves the archive in place. -/
def installFresh (env : ProviderEnv) (downinfo : DownloadInfo) (fs : FsState) :
    Except Err Unit × FsState × ProvEffects :=
  match cleanupLanguageServer env.deleteErr 1000 fs with
  | (.thrown le, fs2) => (.error (le.getD .undef), fs2, { ProvEffects.init with fetched := true })
  | (.ok removed, fs2) =>
    match env.downloadErr with
    | some e => (.error e, { fs2 with serverDirExists := true }, ⟨true, true, removed, false⟩)
    | none =>
      match env.extractErr with
      | some e =>
        (.error e, { fs2 with serverDirExists := true, archiveExists := true },
          ⟨true, true, removed, true⟩)
      | none =>
        (.ok (), saveLocalDownloadInfo { downinfo with downloadedTime := env.now }
          { fs2 with serverDirExists := true, archiveExists := false, exeExists := true },
          ⟨true, true, removed, true⟩)

/-- `downloadLanguageServer` (progress.ts, lines 459-551): ensure the
storage directory, resolve the release, load the local record; when the
stored `(id, version)` equals the resolved one, only refresh the
record's timestamp and return; otherwise run the fresh-install tail. -/
def downloadLanguageServer (env : ProviderEnv) (cfg : ProviderConfig) (fs : FsState) :
    Except Err Unit × FsState × ProvEffects :=
  match fetchDownloadInfo cfg env.httpJson env.now with
  | .error e =>
    (.error e, { fs with storageDirExists := true }, { ProvEffects.init with fetched := true })
  | .ok downinfo =>
    match loadLocalDownloadInfo { fs with storageDirExists := true } with
    | .error e =>
      (.error e, { fs with storageDirExists := true }, { ProvEffects.init with fetched := true })
    | .ok (some localinfo) =>
      if localinfo.id = downinfo.id ∧ localinfo.version = downinfo.version then
        (.ok (), saveLocalDownloadInfo { localinfo with downloadedTime := env.now }
          { fs with storageDirExists := true },
          { ProvEffects.init with fetched := true })
      else installFresh env downinfo { fs with storageDirExists := true }
    | .ok none => installFresh env downinfo { fs with storageDirExists := true }

/-- `getLanguageServerIfDownloaded`: the executable path when the file
exists, `undefined` otherwise. -/
def getLanguageServerIfDownloaded (cfg : ProviderConfig) (fs : FsState) : Option String :=
  if fs.exeExists then some cfg.exePath else none

/-- `getLanguageServerVersion`: the `version` field of the loaded
record, `undefined` when the record is absent; a parse failure throws. -/
def getLanguageServerVersion (fs : FsState) : Except Err (Option String) :=
  match loadLocalDownloadInfo fs with
  | .error e => .error e
  | .ok v => .ok (v.map (fun i => i.version))

/-- Construction-time installer configuration: server name (omitted, it
only feeds message text), the provider configuration, and the optional
user-specified custom server path. -/
structure InstallerConfig where
  provider : ProviderConfig
  customPath : Option String

/-- JavaScript truthiness of a `string | undefined` value: defined and
nonempty. -/
def strTruthy : Option String → Bool
  | none => false
  | some s => !(s = "")

/-- The `path` getter of `ServerInstaller`: the custom path when one is
truthy and exists, otherwise the provider's downloaded-executable path. -/
def ServerInstaller.path (cfg : InstallerConfig) (fs : FsState) : Option String :=
  match cfg.customPath with
  | some p =>
    if p = "" then getLanguageServerIfDownloaded cfg.provider fs
    else if fs.customExists then some p
    else none
  | none => getLanguageServerIfDownloaded cfg.provider fs

/-- `fs.existsSync` at a path the installer handles: the configured
custom path is backed by `customExists`, the executable path by
`exeExists`. -/
def existsSyncAt (cfg : InstallerConfig) (fs : FsState) (p : String) : Bool :=
  if cfg.customPath = some p then fs.customExists
  else if p = cfg.provider.exePath then fs.exeExists
  else false

/-- `checkInstalled`: `!!path && existsSync(path)`. -/
def checkInstalled (cfg : InstallerConfig) (fs : FsState) : Bool :=
  match ServerInstaller.path cfg fs with
  | none => false
  | some p => !(p = "") && existsSyncAt cfg fs p

/-- The `CheckVersionResult` union of `ServerInstaller.checkVersion`. -/
inductive CheckVersionResult where
  | notInstalled
  | customPath
  | different (currentVersion latestVersion : String)
  | same (version : String)
deriving DecidableEq, Repr

/-- `checkVersion`: custom path short-circuits; an absent record is
`notInstalled`; otherwise the freshly resolved artifact's version label
is compared to the stored one by string inequality.  The second
component records whether `fetchDownloadInfo` was invoked. -/
def checkVersion (env : ProviderEnv) (cfg : InstallerConfig) (fs : FsState) :
    Except Err CheckVersionResult × Bool :=
  if strTruthy cfg.customPath then (.ok .customPath, false)
  else
    match loadLocalDownloadInfo fs with
    | .error e => (.error e, false)
    | .ok none => (.ok .notInstalled, false)
    | .ok (some info) =>
      match fetchDownloadInfo cfg.provider env.httpJson env.now with
      | .error e => (.error e, true)
      | .ok down =>
        if !(info.version = down.version) then
          (.ok (.different info.version down.version), true)
        else (.ok (.same info.version), true)

/-- The `EnsureInstalledResult` union.  The `path` of a success and the
`version` of an install are carried as the runtime `Option` values that
the TypeScript non-null assertions merely cast. -/
inductive EnsureInstalledResult where
  | notAvailable (error : ErrVal)
  | skipped (path : Option String)
  | installed (path : Option String) (version : Option String)
deriving DecidableEq, Repr

/-- Effects of one `ensureInstalled` call: provider effects plus whether
a confirmation prompt was shown. -/
structure InstEffects where
  prov : ProvEffects
  prompted : Bool
deriving DecidableEq, Repr

/-- No installer effect yet. -/
def InstEffects.init : InstEffects := ⟨ProvEffects.init, false⟩

/-- Environment of one installer execution: the provider environment
plus the answer the user would give to a confirmation prompt. -/
structure InstallerEnv where
  provider : ProviderEnv
  promptAnswer : Bool

/-- `ensureInstalled(ask, doInstall)` (ServerInstaller): early return
when already installed; custom path cannot be installed for the user;
`doInstall=false` reports unavailable; the guard
`!ask || !(await window.showPrompt(message))` returns `Cancelled by
user` (with `ask=false` the prompt is never shown); otherwise run
`downloadLanguageServer` and report the new path and version, catching
any thrown error. -/
def ensureInstalled (env : InstallerEnv) (cfg : InstallerConfig)
    (ask doInstall : Bool) (fs : FsState) :
    EnsureInstalledResult × FsState × InstEffects :=
  if checkInstalled cfg fs then
    (.skipped (ServerInstaller.path cfg fs), fs, InstEffects.init)
  else if strTruthy cfg.customPath then
    (.notAvailable (.msg ("Custom server path (" ++ (cfg.customPath.getD "") ++
      ") is specified, but the server is not found")), fs, InstEffects.init)
  else if !doInstall then
    (.notAvailable (.msg "doInstall is not set"), fs, InstEffects.init)
  else if !ask then
    (.notAvailable (.msg "Cancelled by user"), fs, InstEffects.init)
  else if !env.promptAnswer then
    (.notAvailable (.msg "Cancelled by user"), fs, { InstEffects.init with prompted := true })
  else
    match downloadLanguageServer env.provider cfg.provider fs with
    | (.error e, fs2, pe) => (.notAvailable (.exn e), fs2, ⟨pe, true⟩)
    | (.ok _, fs2, pe) =>
      match getLanguageServerVersion fs2 with
      | .error e => (.notAvailable (.exn e), fs2, ⟨pe, true⟩)
      | .ok v => (.installed (ServerInstaller.path cfg fs2) v, fs2, ⟨pe, true⟩)

/-- The dependent running client handed to `ensureUpdated`: whether a
client was passed at all and what its `needsStop()` returns. -/
structure ClientConfig where
  present : Bool
  needsStop : Bool
deriving DecidableEq, Repr

/-- Effects of one `ensureUpdated` call: installer effects plus whether
the dependent client was stopped and whether its `start()` was invoked. -/
structure UpdEffects where
  inst : InstEffects
  clientStopped : Bool
  clientStarted : Bool
deriving DecidableEq, Repr

/-- The `EnsureUpdatedResult` union.  `versions` carries the runtime
`oldVersion`/`newVersion` values (`newVersion` as an `Option` since the
non-null-asserted install version feeds it). -/
inductive EnsureUpdatedResult where
  | customPath
  | upToDate
  | outdatedSkipped (versions : Option (Option String × Option String)) (error : ErrVal)
  | outdatedUpdated (versions : Option String × Option String)
deriving DecidableEq, Repr

/-- Installer effects where only `fetchDownloadInfo` may have run. -/
def InstEffects.fetchOnly (f : Bool) : InstEffects := ⟨⟨f, false, false, false⟩, false⟩

/-- Fold the fetch flag of `checkVersion` into later provider effects. -/
def ProvEffects.withFetch (pe : ProvEffects) (f : Bool) : ProvEffects :=
  { pe with fetched := f || pe.fetched }

/-- `ensureUpdated(ask, doInstall, showMessage, runningClient)`
(ServerInstaller): classify via `checkVersion` (errors are caught and
reported as an `outdated` non-update); `notInstalled` stops the client
when needed, delegates to `ensureInstalled`, restarts the client, and
converts the result (a `skipped` result fails the `assert`, which the
surrounding `catch` turns into an error outcome); `customPath` and
`same` return immediately; `different` gates on `doInstall` and on
`!ask || !prompt`, then stops the client when needed, installs, and
restarts the client on both the success and the failure path. -/
def ensureUpdated (env : InstallerEnv) (cfg : InstallerConfig)
    (ask doInstall showMessage : Bool) (client : ClientConfig) (fs : FsState) :
    EnsureUpdatedResult × FsState × UpdEffects :=
  match checkVersion env.provider cfg fs with
  | (.error e, f) => (.outdatedSkipped none (.exn e), fs, ⟨.fetchOnly f, false, false⟩)
  | (.ok .customPath, f) => (.customPath, fs, ⟨.fetchOnly f, false, false⟩)
  | (.ok (.same _), f) => (.upToDate, fs, ⟨.fetchOnly f, false, false⟩)
  | (.ok .notInstalled, f) =>
    let stopped := client.present && client.needsStop
    match ensureInstalled env cfg ask doInstall fs with
    | (instRes, fs2, ie) =>
      let ue : UpdEffects := ⟨⟨ie.prov.withFetch f, ie.prompted⟩, stopped, client.present⟩
      match instRes with
      | .notAvailable err => (.outdatedSkipped none err, fs2, ue)
      | .skipped _ => (.outdatedSkipped none (.exn .assertFail), fs2, ue)
      | .installed _ version => (.outdatedUpdated (none, version), fs2, ue)
  | (.ok (.different cur latest), f) =>
    let versions := some (some cur, some latest)
    if !doInstall then
      (.outdatedSkipped versions (.msg "doInstall is not set"), fs, ⟨.fetchOnly f, false, false⟩)
    else if !ask then
      (.outdatedSkipped versions (.msg "Cancelled by user"), fs, ⟨.fetchOnly f, false, false⟩)
    else if !env.promptAnswer then
      (.outdatedSkipped versions (.msg "Cancelled by user"), fs,
        ⟨⟨⟨f, false, false, false⟩, true⟩, false, false⟩)
    else
      let stopped := client.present && client.needsStop
      match downloadLanguageServer env.provider cfg.provider fs with
      | (.error e, fs2, pe) =>
        (.outdatedSkipped versions (.exn e), fs2,
          ⟨⟨pe.withFetch f, true⟩, stopped, client.present⟩)
      | (.ok _, fs2, pe) =>
        (.outdatedUpdated (some cur, some latest), fs2,
          ⟨⟨pe.withFetch f, true⟩, stopped, client.present⟩)

/-! Concrete fixtures used by counterexamples and witnesses. -/

/-- A URL-prefix installer configuration without a custom path. -/
def cfgU : InstallerConfig :=
  ⟨⟨.byUrl "https://example.com/dl", .str "tool-linux-x64.tar.gz", .targzip,
    "/storage/server/tool"⟩, none⟩

/-- A GitHub installer configuration without a custom path. -/
def cfgGh : InstallerConfig :=
  ⟨⟨.github "owner/tool" "latest", .str "tool.zip", .zip, "/storage/server/tool"⟩, none⟩

/-- A fresh file system: nothing exists, no state file. -/
def fsFresh : FsState := ⟨false, false, false, false, false, none⟩

/-- An installed file system: storage, server directory and executable
exist, and the state file records `(url u1, version v1, id 1)`. -/
def fsRec1 : FsState :=
  ⟨true, true, true, false, false, some (.valid ⟨"https://dl/u1", "v1", 1, 0⟩)⟩

/-- An installer environment over the URL-prefix repository in which
every collaborator operation succeeds and a prompt would be answered
with yes. -/
def envU : InstallerEnv :=
  ⟨⟨.error (.network "unused"), fun _ => none, none, none, 1000⟩, true⟩

/-- A provider environment whose release resolves to version label `v1`
with release id 2, all operations succeeding. -/
def envGh : ProviderEnv :=
  ⟨.ok ⟨[⟨"tool.zip", "https://dl/u2"⟩], "v1", 2⟩, fun _ => none, none, none, 7⟩

/-- A provider environment whose release resolves to version label `v2`
with release id 9, all operations succeeding. -/
def envGh2 : ProviderEnv :=
  ⟨.ok ⟨[⟨"tool.zip", "https://dl/u9"⟩], "v2", 9⟩, fun _ => none, none, none, 7⟩

/-- A provider environment over the URL-prefix repository in which the
extraction step fails and everything else succeeds. -/
def envExtractFail : ProviderEnv :=
  ⟨.error (.network "unused"), fun _ => none, none, some (.extraction "boom"), 10⟩

/-! Claim theorems. -/

/-- C2 (code bug): with no record, no custom path and no stray
executable, `ensureInstalled(ask := false, doInstall := true)` returns
the `Cancelled by user` failure without prompting, downloading, or
touching any state — the guard `!ask || !(await window.showPrompt(...))`
cancels whenever `ask` is false.  The same call with `ask := true` and
an affirmative prompt performs the install and returns
`available: true, installed: true` with the recorded version `""` —
the outcome the spec requires of `ask := false` itself. -/
theorem c2_ask_false_cancels_eval :
    ensureInstalled envU cfgU false true fsFresh =
      (.notAvailable (.msg "Cancelled by user"), fsFresh, InstEffects.init) ∧
    (ensureInstalled envU cfgU true true fsFresh).1 =
      .installed (some "/storage/server/tool") (some "") := by
  decide

/-- C4, counterexample: the state file is absent and no custom path is
configured, yet a stray file at the executable path makes
`checkInstalled` return true — the record is never consulted. -/
theorem c4_stray_exe_counts_installed :
    checkInstalled cfgU ⟨true, true, true, false, false, none⟩ = true ∧
    (⟨true, true, true, false, false, none⟩ : FsState).infoFile = none ∧
    cfgU.customPath = none := by
  decide

/-- C4 (amended): with no custom path configured and a nonempty
executable path, `checkInstalled` equals the existence of a file at the
executable path, for every file-system state — in particular it is
independent of the state file. -/
theorem c4_amended_file_presence_decides (cfg : InstallerConfig) (fs : FsState)
    (h1 : cfg.customPath = none) (h2 : ¬ cfg.provider.exePath = "") :
    checkInstalled cfg fs = fs.exeExists := by
  cases h : fs.exeExists <;>
    simp [checkInstalled, ServerInstaller.path, getLanguageServerIfDownloaded,
      existsSyncAt, h1, h2, h]

/-- C4 witness: the amended theorem evaluated at a state with a stray
executable and an absent record. -/
theorem c4_amended_witness :
    cfgU.customPath = none ∧
    checkInstalled cfgU ⟨true, false, true, false, false, none⟩ =
      (⟨true, false, true, false, false, none⟩ : FsState).exeExists :=
  ⟨by decide, c4_amended_file_presence_decides cfgU
    ⟨true, false, true, false, false, none⟩ (by decide) (by decide)⟩

/-- C9: whenever a custom override path is configured (a truthy string),
`checkVersion` returns the `customPath` result for every file-system
state and every remote state, and `fetchDownloadInfo` is not invoked. -/
theorem c9_custom_path_short_circuit (env : ProviderEnv) (cfg : InstallerConfig)
    (fs : FsState) (h : strTruthy cfg.customPath = true) :
    checkVersion env cfg fs = (.ok .customPath, false) := by
  simp [checkVersion, h]

/-- C9 witness: the short-circuit evaluated with a configured custom
path, an outdated record and a reachable remote. -/
theorem c9_witness :
    strTruthy (some "/opt/custom/tool") = true ∧
    checkVersion envGh2 ⟨cfgGh.provider, some "/opt/custom/tool"⟩ fsRec1 =
      (.ok .customPath, false) :=
  ⟨by decide, c9_custom_path_short_circuit envGh2
    ⟨cfgGh.provider, some "/opt/custom/tool"⟩ fsRec1 (by decide)⟩

/-- C10: whenever `checkInstalled` is true, `ensureInstalled` returns
the skipped outcome carrying the existing path, for all `ask` and
`doInstall`, with the file system unchanged and no prompt, no release
resolution, no download, no removal and no extraction. -/
theorem c10_already_installed_fast_path (env : InstallerEnv) (cfg : InstallerConfig)
    (ask doInstall : Bool) (fs : FsState) (h : checkInstalled cfg fs = true) :
    ensureInstalled env cfg ask doInstall fs =
      (.skipped (ServerInstaller.path cfg fs), fs, InstEffects.init) := by
  simp [ensureInstalled, h]

/-- C10 witness: the fast path evaluated on an installed state with
`ask := false, doInstall := true`. -/
theorem c10_witness :
    checkInstalled cfgU fsRec1 = true ∧
    ensureInstalled envU cfgU false true fsRec1 =
      (.skipped (ServerInstaller.path cfgU fsRec1), fsRec1, InstEffects.init) :=
  ⟨by decide, c10_already_installed_fast_path envU cfgU false true fsRec1 (by decide)⟩

/-- C8: `loadLocalDownloadInfo` returns the absent marker exactly when
the state file is missing, and a state file that fails to parse makes it
throw the parse error, which propagates through `checkVersion` to the
caller — a corrupt state file is never reported as absent. -/
theorem c8_load_error_policy (fs fs2 : FsState) (msg : String) (env : ProviderEnv)
    (cfg : InstallerConfig) (hc : strTruthy cfg.customPath = false) :
    (fs.infoFile = none → loadLocalDownloadInfo fs = .ok none) ∧
    (loadLocalDownloadInfo fs = .ok none → fs.infoFile = none) ∧
    (fs2.infoFile = some (.corrupt msg) →
      loadLocalDownloadInfo fs2 = .error (.parse msg) ∧
      (checkVersion env cfg fs2).1 = .error (.parse msg)) := by
  refine ⟨fun h => by simp [loadLocalDownloadInfo, h], fun h => ?_, fun h => ?_⟩
  · unfold loadLocalDownloadInfo at h
    rcases hf : fs.infoFile with _ | c
    · rfl
    · rw [hf] at h
      cases c <;> simp at h
  · have hl : loadLocalDownloadInfo fs2 = .error (.parse msg) := by
      simp [loadLocalDownloadInfo, h]
    exact ⟨hl, by simp [checkVersion, hc, hl]⟩

/-- C8 witness: the policy evaluated at a missing state file and at a
corrupt state file behind a GitHub configuration without custom path. -/
theorem c8_witness :
    fsFresh.infoFile = none ∧
    loadLocalDownloadInfo fsFresh = .ok none ∧
    (checkVersion envGh cfgGh ⟨true, true, true, false, false, some (.corrupt "bad json")⟩).1 =
      .error (.parse "bad json") :=
  ⟨by decide,
    (c8_load_error_policy fsFresh ⟨true, true, true, false, false, some (.corrupt "bad json")⟩
      "bad json" envGh cfgGh (by decide)).1 (by decide),
    ((c8_load_error_policy fsFresh ⟨true, true, true, false, false, some (.corrupt "bad json")⟩
      "bad json" envGh cfgGh (by decide)).2.2 (by decide)).2⟩

/-- C3, counterexample: a stored record and a freshly resolved artifact
with equal version labels `v1` but different release ids (1 and 2) are
classified `same` by `checkVersion`, not `different` — the release id is
not part of its comparison. -/
theorem c3_same_despite_id_mismatch :
    (checkVersion envGh cfgGh fsRec1).1 = .ok (.same "v1") ∧
    loadLocalDownloadInfo fsRec1 = .ok (some ⟨"https://dl/u1", "v1", 1, 0⟩) ∧
    fetchDownloadInfo cfgGh.provider envGh.httpJson envGh.now =
      .ok ⟨"https://dl/u2", "v1", 2, 7⟩ := by
  decide

/-- C3 (amended): `checkVersion` classifies by the version label alone:
with no custom path, a loaded record and a resolved artifact, the result
is `different` exactly when the version labels differ (so equal release
ids with differing labels are always `different`, never `same`), and
`same` when the labels agree even if the release ids differ. -/
theorem c3_amended_version_only_comparison (env : ProviderEnv) (cfg : InstallerConfig)
    (fs : FsState) (rec down : DownloadInfo) (hc : strTruthy cfg.customPath = false)
    (hl : loadLocalDownloadInfo fs = .ok (some rec))
    (hf : fetchDownloadInfo cfg.provider env.httpJson env.now = .ok down) :
    (checkVersion env cfg fs).1 =
      .ok (if rec.version = down.version then .same rec.version
           else .different rec.version down.version) := by
  by_cases h : rec.version = down.version <;> simp [checkVersion, hc, hl, hf, h]

/-- C3 witness: the amended classification evaluated on a record and an
artifact sharing release id 1 with labels `v1` and `v2`: the result is
`different`. -/
theorem c3_amended_witness :
    loadLocalDownloadInfo fsRec1 = .ok (some ⟨"https://dl/u1", "v1", 1, 0⟩) ∧
    (checkVersion ⟨.ok ⟨[⟨"tool.zip", "https://dl/u3"⟩], "v2", 1⟩, fun _ => none, none, none, 7⟩
        cfgGh fsRec1).1 =
      .ok (if ("v1" : String) = "v2" then .same "v1" else .different "v1" "v2") :=
  ⟨by decide,
    c3_amended_version_only_comparison
      ⟨.ok ⟨[⟨"tool.zip", "https://dl/u3"⟩], "v2", 1⟩, fun _ => none, none, none, 7⟩
      cfgGh fsRec1 ⟨"https://dl/u1", "v1", 1, 0⟩ ⟨"https://dl/u3", "v2", 1, 7⟩
      (by decide) (by decide) (by decide)⟩

/-- C7: when the stored record's `(id, version)` equals the freshly
resolved artifact's, `downloadLanguageServer` succeeds, performs no
artifact download, no directory removal and no extraction, and the only
file-system change is the record's refreshed `downloadedTime` — its
`url`, `version` and `id` fields and the entire install directory are
untouched. -/
theorem c7_idempotent_refresh (env : ProviderEnv) (cfg : ProviderConfig) (fs : FsState)
    (rec down : DownloadInfo) (h0 : fs.storageDirExists = true)
    (hl : loadLocalDownloadInfo fs = .ok (some rec))
    (hf : fetchDownloadInfo cfg env.httpJson env.now = .ok down)
    (hid : rec.id = down.id) (hver : rec.version = down.version) :
    downloadLanguageServer env cfg fs =
      (.ok (), { fs with infoFile := some (.valid { rec with downloadedTime := env.now }) },
        { ProvEffects.init with fetched := true }) := by
  have hfs1 : ({ fs with storageDirExists := true } : FsState) = fs := by
    cases fs
    simp_all
  simp [downloadLanguageServer, hfs1, hf, hl, saveLocalDownloadInfo, hid, hver, h0]

/-- C7 witness: the no-op refresh evaluated on an installed state whose
record matches the resolved release `(id 2, version v1)` exactly. -/
theorem c7_witness :
    loadLocalDownloadInfo ⟨true, true, true, false, false, some (.valid ⟨"https://dl/u2", "v1", 2, 0⟩)⟩ =
      .ok (some ⟨"https://dl/u2", "v1", 2, 0⟩) ∧
    downloadLanguageServer envGh cfgGh.provider
        ⟨true, true, true, false, false, some (.valid ⟨"https://dl/u2", "v1", 2, 0⟩)⟩ =
      (.ok (),
        { (⟨true, true, true, false, false, some (.valid ⟨"https://dl/u2", "v1", 2, 0⟩)⟩ : FsState)
          with infoFile := some (.valid ⟨"https://dl/u2", "v1", 2, 7⟩) },
        { ProvEffects.init with fetched := true }) :=
  ⟨by decide,
    c7_idempotent_refresh envGh cfgGh.provider
      ⟨true, true, true, false, false, some (.valid ⟨"https://dl/u2", "v1", 2, 0⟩)⟩
      ⟨"https://dl/u2", "v1", 2, 0⟩ ⟨"https://dl/u2", "v1", 2, 7⟩
      (by decide) (by decide) (by decide) (by decide) (by decide)⟩

/-- Each run of the cleanup loop either leaves the file system unchanged
or removes exactly the server directory, the executable and the state
file. -/
theorem cleanupLoop_state (sched : Nat → Option Err) (t : Nat) :
    ∀ fuel k le fs, (cleanupLoop sched t fuel k le fs).2 = fs ∨
      (cleanupLoop sched t fuel k le fs).2 = cleanupApply fs := by
  intro fuel
  induction fuel with
  | zero => intro k le fs; exact .inl rfl
  | succ n ih =>
    intro k le fs
    simp only [cleanupLoop]
    by_cases hk : 100 * k < t
    · rw [if_pos hk]
      by_cases hd : fs.serverDirExists = true
      · rw [if_pos hd]
        rcases hs : sched k with _ | e
        · exact .inr rfl
        · exact ih (k + 1) (some e) fs
      · rw [if_neg hd]
        exact .inl rfl
    · rw [if_neg hk]
      exact .inl rfl

/-- On every failing deletion attempt and on the throwing exit,
`cleanupLanguageServer` leaves the state file as it was; only the single
successful attempt removes it together with the server directory. -/
theorem cleanupLanguageServer_state (sched : Nat → Option Err) (t : Nat) (fs : FsState) :
    (cleanupLanguageServer sched t fs).2 = fs ∨
      (cleanupLanguageServer sched t fs).2 = cleanupApply fs :=
  cleanupLoop_state sched t (t / 100 + 2) 0 none fs

/-- The fresh-install tail never overwrites the record on a failing
path: after any error exit its state file equals the input's or is
absent. -/
theorem installFresh_infoFile (env : ProviderEnv) (d : DownloadInfo) (fs : FsState)
    (e : Err) (h : (installFresh env d fs).1 = .error e) :
    (installFresh env d fs).2.1.infoFile = fs.infoFile ∨
      (installFresh env d fs).2.1.infoFile = none := by
  have hst := cleanupLanguageServer_state env.deleteErr 1000 fs
  unfold installFresh at h ⊢
  rcases hcl : cleanupLanguageServer env.deleteErr 1000 fs with ⟨cr, fs2⟩
  rw [hcl] at hst h
  have hst2 : fs2 = fs ∨ fs2 = cleanupApply fs := by simpa using hst
  have hinfo : fs2.infoFile = fs.infoFile ∨ fs2.infoFile = none := by
    rcases hst2 with h2 | h2 <;> rw [h2] <;> simp [cleanupApply]
  cases cr with
  | thrown le => simpa using hinfo
  | ok removed =>
    rcases hd : env.downloadErr with _ | de
    · rcases hx : env.extractErr with _ | xe
      · simp [hd, hx] at h
      · simpa [hd, hx] using hinfo
    · simpa [hd] using hinfo

/-- C1, counterexample: with an installed record `(v1, id 1)` and an
extraction failure, `downloadLanguageServer` fails and the persisted
record after the call is absent — it was deleted by the pre-download
cleanup, so it is not unchanged from before the call. -/
theorem c1_record_deleted_counterexample :
    (downloadLanguageServer envExtractFail cfgU.provider fsRec1).1 =
      .error (.extraction "boom") ∧
    (downloadLanguageServer envExtractFail cfgU.provider fsRec1).2.1.infoFile = none ∧
    ¬ fsRec1.infoFile = none := by
  decide

/-- C1 (amended): on every failing execution of `downloadLanguageServer`
the record is never overwritten or partially updated: afterwards the
state file is either byte-identical to what it was before the call or
absent (deleted whole by the pre-download cleanup); in particular it
never holds the new artifact's data on a failing path, so a subsequent
`checkVersion` sees either the old installation or `notInstalled`. -/
theorem c1_amended_record_never_overwritten (env : ProviderEnv) (cfg : ProviderConfig)
    (fs : FsState) (e : Err) (h : (downloadLanguageServer env cfg fs).1 = .error e) :
    (downloadLanguageServer env cfg fs).2.1.infoFile = fs.infoFile ∨
      (downloadLanguageServer env cfg fs).2.1.infoFile = none := by
  have hmain : ∀ down, downloadLanguageServer env cfg fs =
        installFresh env down { fs with storageDirExists := true } →
      (downloadLanguageServer env cfg fs).2.1.infoFile = fs.infoFile ∨
        (downloadLanguageServer env cfg fs).2.1.infoFile = none := by
    intro down heq
    rw [heq] at h ⊢
    have hif := installFresh_infoFile env down { fs with storageDirExists := true } e h
    simpa using hif
  rcases hf : fetchDownloadInfo cfg env.httpJson env.now with fe | down
  · have heq : downloadLanguageServer env cfg fs =
        (.error fe, { fs with storageDirExists := true },
          { ProvEffects.init with fetched := true }) := by
      simp [downloadLanguageServer, hf]
    rw [heq]
    simp
  · rcases hl : loadLocalDownloadInfo { fs with storageDirExists := true } with le | li
    · have heq : downloadLanguageServer env cfg fs =
          (.error le, { fs with storageDirExists := true },
            { ProvEffects.init with fetched := true }) := by
        simp [downloadLanguageServer, hf, hl]
      rw [heq]
      simp
    · rcases li with _ | rec
      · exact hmain down (by simp [downloadLanguageServer, hf, hl])
      · by_cases hrec : rec.id = down.id ∧ rec.version = down.version
        · have heq : (downloadLanguageServer env cfg fs).1 = .ok () := by
            simp [downloadLanguageServer, hf, hl, hrec]
          rw [heq] at h
          exact absurd h (by simp)
        · exact hmain down (by simp [downloadLanguageServer, hf, hl, hrec])

/-- C1 witness: the amended theorem evaluated on a fresh state (no prior
record) with a failing extraction: the record stays absent. -/
theorem c1_amended_witness :
    (downloadLanguageServer envExtractFail cfgU.provider fsFresh).1 =
      .error (.extraction "boom") ∧
    ((downloadLanguageServer envExtractFail cfgU.provider fsFresh).2.1.infoFile =
        fsFresh.infoFile ∨
      (downloadLanguageServer envExtractFail cfgU.provider fsFresh).2.1.infoFile = none) :=
  ⟨by decide,
    c1_amended_record_never_overwritten envExtractFail cfgU.provider fsFresh
      (.extraction "boom") (by decide)⟩

/-- Behaviour of the cleanup retry loop under a schedule that fails for
the first `N` attempts and succeeds on attempt `N`, starting at attempt
`k` with enough fuel: it succeeds exactly when attempt `N` starts before
the timeout, and otherwise throws the error observed on the last attempt
that ran. -/
theorem cleanupLoop_sched (errFn : Nat → Err) (N timeout : Nat) (fs : FsState)
    (hdir : fs.serverDirExists = true) :
    ∀ fuel k lastError, k ≤ N → timeout ≤ 100 * (k + fuel) →
      (cleanupLoop (fun j => if j < N then some (errFn j) else none)
          timeout fuel k lastError fs).1 =
        if 100 * N < timeout then .ok true
        else if 100 * k < timeout then .thrown (some (errFn ((timeout + 99) / 100 - 1)))
        else .thrown lastError := by
  intro fuel
  induction fuel with
  | zero =>
    intro k lastError hkN hfuel
    have h1 : ¬ 100 * k < timeout := by omega
    have h2 : ¬ 100 * N < timeout := by omega
    simp only [cleanupLoop]
    rw [if_neg h2, if_neg h1]
  | succ n ih =>
    intro k lastError hkN hfuel
    simp only [cleanupLoop]
    by_cases hk : 100 * k < timeout
    · rw [if_pos hk, if_pos hdir]
      by_cases hkN2 : k < N
      · rw [if_pos hkN2]
        rw [ih (k + 1) (some (errFn k)) (by omega) (by omega)]
        by_cases hN : 100 * N < timeout
        · rw [if_pos hN, if_pos hN]
        · rw [if_neg hN, if_neg hN, if_pos hk]
          by_cases hk1 : 100 * (k + 1) < timeout
          · rw [if_pos hk1]
          · rw [if_neg hk1]
            have hA : (timeout + 99) / 100 - 1 = k := by omega
            rw [hA]
      · have hkN3 : k = N := by omega
        rw [if_neg hkN2]
        subst hkN3
        rw [if_pos hk]
    · rw [if_neg hk]
      have h2 : ¬ 100 * N < timeout := by omega
      rw [if_neg h2, if_neg hk]

/-- C6: under a deletion schedule that fails for exactly `N` retry
intervals and then succeeds, and a positive timeout,
`cleanupLanguageServer(timeout)` returns successfully if and only if
`N` sleep intervals of 100 ms fit strictly below the timeout; otherwise
it throws the error observed on the last deletion attempt made.  When
the install directory does not exist it returns `false` without error. -/
theorem c6_cleanup_retry_bound (errFn : Nat → Err) (N timeout : Nat) (fs : FsState)
    (ht : 0 < timeout) (hdir : fs.serverDirExists = true) :
    ((cleanupLanguageServer (fun j => if j < N then some (errFn j) else none)
          timeout fs).1 = .ok true ↔ 100 * N < timeout) ∧
    (¬ 100 * N < timeout →
      (cleanupLanguageServer (fun j => if j < N then some (errFn j) else none)
          timeout fs).1 = .thrown (some (errFn ((timeout + 99) / 100 - 1)))) ∧
    (cleanupLanguageServer (fun j => if j < N then some (errFn j) else none)
        timeout { fs with serverDirExists := false }).1 = .ok false := by
  have main := cleanupLoop_sched errFn N timeout fs hdir (timeout / 100 + 2) 0 none
    (Nat.zero_le N) (by omega)
  refine ⟨?_, ?_, ?_⟩
  · unfold cleanupLanguageServer
    rw [main]
    by_cases hN : 100 * N < timeout
    · rw [if_pos hN]
      simp [hN]
    · rw [if_neg hN, if_pos ht]
      simp [hN]
  · intro hN
    unfold cleanupLanguageServer
    rw [main, if_neg hN, if_pos ht]
  · obtain ⟨f, hf⟩ : ∃ f, timeout / 100 + 2 = f + 1 := ⟨timeout / 100 + 1, rfl⟩
    unfold cleanupLanguageServer
    rw [hf]
    simp only [cleanupLoop]
    rw [if_pos (by simpa using ht)]
    simp

/-- C6 witness: three failing attempts against a 250 ms timeout exhaust
the budget (300 ≥ 250), so the loop does not return success. -/
theorem c6_witness :
    (0 < 250 ∧ fsRec1.serverDirExists = true) ∧
    ((cleanupLanguageServer (fun j => if j < 3 then some (Err.deletion j) else none)
        250 fsRec1).1 = .ok true ↔ 100 * 3 < 250) :=
  ⟨⟨by decide, by decide⟩,
    (c6_cleanup_retry_bound Err.deletion 3 250 fsRec1 (by decide) (by decide)).1⟩

/-- C5: in every execution of `ensureUpdated` — over all environments,
configurations, flags, clients and file-system states — if the
dependent running client was stopped, then its `start()` was invoked
before the outcome was returned: the process is never left stopped, on
the successful-install, failed-install and failed-nested-install paths
alike. -/
theorem c5_client_restarted_on_every_exit (env : InstallerEnv) (cfg : InstallerConfig)
    (ask doInstall showMessage : Bool) (client : ClientConfig) (fs : FsState)
    (h : (ensureUpdated env cfg ask doInstall showMessage client fs).2.2.clientStopped = true) :
    (ensureUpdated env cfg ask doInstall showMessage client fs).2.2.clientStarted = true := by
  unfold ensureUpdated at h ⊢
  repeat' split at h
  all_goals simp_all [Bool.and_eq_true]

/-- C5 witness: an execution that stops the client — outdated record,
affirmative prompt, client present with `needsStop` — restarts it. -/
theorem c5_witness :
    (ensureUpdated ⟨envGh2, true⟩ cfgGh true true false ⟨true, true⟩
        fsRec1).2.2.clientStopped = true ∧
    (ensureUpdated ⟨envGh2, true⟩ cfgGh true true false ⟨true, true⟩
        fsRec1).2.2.clientStarted = true :=
  ⟨by decide,
    c5_client_restarted_on_every_exit ⟨envGh2, true⟩ cfgGh true true false ⟨true, true⟩
      fsRec1 (by decide)⟩

end CocUtils
